import Mathlib

/-!
Verification of the confix core: the format-detecting config loader
(`src/config.rs`), the multi-file merge and subprocess runner
(`src/runner.rs`), the error taxonomy (`src/error.rs`) and the top-level
exit-code policy (`src/main.rs`).

Shallow embedding conventions:
* A filesystem path is a `String`; `Path.fileName` and `Path.extension`
  reproduce the semantics of Rust's `std::path::Path::file_name` /
  `Path::extension` (extension is the part of the final component after
  its last dot, provided that dot is not the component's first character).
* The filesystem is a function `String → Option (Except String String)`:
  `none` means the path does not exist, `some (.error e)` an existing but
  unreadable file, `some (.ok c)` an existing file with contents `c`.
* The three format parsers (dotenvy, serde_json, toml) are external
  black-box libraries; they are modelled as fields of a `Parsers`
  structure mapping file contents to their parse outcome.
* `ConfigMap` (Rust `HashMap<String, String>`) is an association list
  with unique keys; `insert` replaces any existing binding of the key,
  and iteration order carries no meaning, matching the hash map.
* Process spawning and waiting are modelled by oracle functions inside an
  `Os` structure; `run_command` additionally returns the list of spawn
  requests it issued, so that "never attempts to spawn" is a statement
  about that trace.
-/

namespace Confix

/-! ## Paths (model of the `std::path::Path` queries used by `config.rs`) -/

/-- Index of the last occurrence of a dot in a list of characters. -/
def lastDotIdx : List Char → Option Nat
  | [] => none
  | c :: rest =>
    match lastDotIdx rest with
    | some i => some (i + 1)
    | none => if c = '.' then some 0 else none

/-- The extension of a bare file name, per Rust `Path::extension` applied to
a single normal component: the part after the last dot, unless there is no
dot or the only dot is the leading character. -/
def extOfFileName (f : String) : Option String :=
  match lastDotIdx f.toList with
  | none => none
  | some 0 => none
  | some i => some (String.mk (f.toList.drop (i + 1)))

/-- Split a character list on `/`, keeping empty components, like
`String.splitOn` (re-implemented structurally so it evaluates). -/
def splitOnSlash : List Char → List (List Char)
  | [] => [[]]
  | c :: rest =>
    match splitOnSlash rest with
    | [] => [[c]]
    | h :: t => if c = '/' then [] :: h :: t else (c :: h) :: t

/-- Rust `Path::file_name`: the final normal component of the path; `none`
for paths ending in `..`, the root path, or the empty path. -/
def fileName (p : String) : Option String :=
  let comps := ((splitOnSlash p.toList).map String.mk).filter
    (fun c => !(c == "") && !(c == "."))
  match comps.getLast? with
  | none => none
  | some c => if c = ".." then none else some c

/-- Rust `Path::extension` (composed with `to_str`, which always succeeds in
this Unicode model). -/
def extension (p : String) : Option String :=
  (fileName p).bind extOfFileName

/-! ## ConfigMap (Rust `HashMap<String, String>`) -/

/-- `ConfigMap` from `src/config.rs`: a map from string keys to string
values, modelled as an association list with unique keys. -/
abbrev ConfigMap := List (String × String)

/-- The empty map (`ConfigMap::new()`). -/
def ConfigMap.empty : ConfigMap := []

/-- All entries whose key differs from `k`. -/
def ConfigMap.eraseKey (m : ConfigMap) (k : String) : ConfigMap :=
  m.filter (fun p => decide (p.1 ≠ k))

/-- `HashMap::insert`: bind `k` to `v`, replacing any existing binding of
`k`.  (The hash map is unordered, so re-binding at the end of the list is
an equivalent model of in-place replacement.) -/
def ConfigMap.insert (m : ConfigMap) (k v : String) : ConfigMap :=
  m.eraseKey k ++ [(k, v)]

/-- `HashMap::get`: the value bound to `k`, if any. -/
def ConfigMap.find? : ConfigMap → String → Option String
  | [], _ => none
  | p :: t, k => if p.1 = k then some p.2 else ConfigMap.find? t k

/-- Number of entries carrying key `k` (at most 1 once the unique-key
invariant holds; exposed so multiplicity can be stated). -/
def ConfigMap.keyCount (m : ConfigMap) (k : String) : Nat :=
  (m.filter (fun p => decide (p.1 = k))).length

/-- `HashMap::extend`: insert every entry of `src` into `m`. -/
def ConfigMap.extend (m src : ConfigMap) : ConfigMap :=
  src.foldl (fun acc p => acc.insert p.1 p.2) m

/-- The value bound to `k` by the LAST entry of the list carrying `k`. -/
def ConfigMap.findLast? (m : ConfigMap) (k : String) : Option String :=
  ConfigMap.find? m.reverse k

/-- Build a map by inserting a list of pairs in order into the empty map. -/
def mapOfPairs (ps : List (String × String)) : ConfigMap :=
  ps.foldl (fun acc p => acc.insert p.1 p.2) ConfigMap.empty

/-! ## Errors (`src/error.rs`) -/

/-- `ConfixError` from `src/error.rs`.  The wrapped foreign error values
(`std::io::Error`, `dotenvy::Error`, `serde_json::Error`,
`toml::de::Error`) are modelled by their display strings. -/
inductive ConfixError where
  | Io (msg : String)
  | Dotenv (msg : String)
  | Json (msg : String)
  | Toml (msg : String)
  | CommandFailed (msg : String)
  | UnsupportedFormat (path : String)
  | FileNotFound (path : String)
deriving DecidableEq

/-- A single-quote character, used by the `runner.rs` error messages. -/
def sq : String := String.singleton (Char.ofNat 39)

/-- The `Display` rendering of each error, from the `thiserror` attributes
in `src/error.rs`. -/
def errMessage : ConfixError → String
  | .Io m => "IO error: " ++ m
  | .Dotenv m => "Dotenv error: " ++ m
  | .Json m => "JSON parsing error: " ++ m
  | .Toml m => "TOML parsing error: " ++ m
  | .CommandFailed m => "Command execution failed: " ++ m
  | .UnsupportedFormat p => "Unsupported file format for: " ++ p
  | .FileNotFound p => "Configuration file not found: " ++ p

/-! ## Filesystem and black-box parsers -/

/-- The filesystem: `none` = path does not exist (`Path::exists` is false);
`some (.error e)` = exists but reading fails with an I/O error;
`some (.ok c)` = exists with contents `c`. -/
def FileSystem := String → Option (Except String String)

/-- The three format parsers, black-box libraries per the spec.
`dotenv` models `dotenvy::from_path_iter` applied to the file's contents:
either the iterator fails to open (outer error) or it yields a sequence of
per-line results.  `json` and `toml` model `serde_json::from_str` /
`toml::from_str` deserializing into a `HashMap<String, String>`, returning
the object's entries (unique keys) or a parse error. -/
structure Parsers where
  dotenv : String → Except String (List (Except String (String × String)))
  json : String → Except String (List (String × String))
  toml : String → Except String (List (String × String))

/-! ## Loaders (`src/config.rs`) -/

/-- The `for item in iter` loop of `load_dotenv`: each item is unwrapped
with `?` (aborting on the first per-line error) and inserted. -/
def dotenvFold : List (Except String (String × String)) → ConfigMap →
    Except ConfixError ConfigMap
  | [], acc => .ok acc
  | .error e :: _, _ => .error (.Dotenv e)
  | .ok (k, v) :: rest, acc => dotenvFold rest (acc.insert k v)

/-- `load_dotenv` from `src/config.rs`: open the file with
`dotenvy::from_path_iter` (a failure, including the file being unreadable
or missing, surfaces as a `Dotenv` error via `?`), then insert every
parsed line into a fresh map. -/
def load_dotenv (P : Parsers) (fs : FileSystem) (path : String) :
    Except ConfixError ConfigMap :=
  match fs path with
  | none => .error (.Dotenv ("could not open " ++ path))
  | some (.error e) => .error (.Dotenv e)
  | some (.ok content) =>
    match P.dotenv content with
    | .error e => .error (.Dotenv e)
    | .ok items => dotenvFold items ConfigMap.empty

/-- `load_json` from `src/config.rs`: `fs::read_to_string` (an I/O failure
surfaces as an `Io` error via `?`), then `serde_json::from_str` into a
`ConfigMap` (a parse failure surfaces as a `Json` error). -/
def load_json (P : Parsers) (fs : FileSystem) (path : String) :
    Except ConfixError ConfigMap :=
  match fs path with
  | none => .error (.Io ("could not read " ++ path))
  | some (.error e) => .error (.Io e)
  | some (.ok content) =>
    match P.json content with
    | .error e => .error (.Json e)
    | .ok entries => .ok (mapOfPairs entries)

/-- `load_toml` from `src/config.rs`: like `load_json` but with the TOML
parser, a parse failure surfacing as a `Toml` error. -/
def load_toml (P : Parsers) (fs : FileSystem) (path : String) :
    Except ConfixError ConfigMap :=
  match fs path with
  | none => .error (.Io ("could not read " ++ path))
  | some (.error e) => .error (.Io e)
  | some (.ok content) =>
    match P.toml content with
    | .error e => .error (.Toml e)
    | .ok entries => .ok (mapOfPairs entries)

/-- `load_config_file` from `src/config.rs`: first the existence check,
then dispatch on the extension (`"env"`, `"json"`, `"toml"`), then the
bare-`.env`-file-name fallback, otherwise `UnsupportedFormat`. -/
def load_config_file (P : Parsers) (fs : FileSystem) (path : String) :
    Except ConfixError ConfigMap :=
  if (fs path).isNone then
    .error (.FileNotFound path)
  else
    match extension path with
    | some "env" => load_dotenv P fs path
    | some "json" => load_json P fs path
    | some "toml" => load_toml P fs path
    | _ =>
      if fileName path = some ".env" then load_dotenv P fs path
      else .error (.UnsupportedFormat path)

/-! ## Merge (`src/runner.rs`) -/

/-- The loop body of `merge_configs`: fold over the paths, `?`-propagating
the first load failure, extending the accumulator with each loaded map. -/
def mergeLoop (P : Parsers) (fs : FileSystem) (acc : ConfigMap) :
    List String → Except ConfixError ConfigMap
  | [] => .ok acc
  | p :: rest =>
    match load_config_file P fs p with
    | .error e => .error e
    | .ok c => mergeLoop P fs (acc.extend c) rest

/-- `merge_configs` from `src/runner.rs`. -/
def merge_configs (P : Parsers) (fs : FileSystem) (paths : List String) :
    Except ConfixError ConfigMap :=
  mergeLoop P fs ConfigMap.empty paths

/-- Specification-side loader: the per-file mappings of a path list, all
of which must load successfully. -/
def loadAll (P : Parsers) (fs : FileSystem) :
    List String → Except ConfixError (List ConfigMap)
  | [] => .ok []
  | p :: rest =>
    match load_config_file P fs p with
    | .error e => .error e
    | .ok m =>
      match loadAll P fs rest with
      | .error e => .error e
      | .ok ms => .ok (m :: ms)

/-! ## Process runner (`src/runner.rs`) and `main` (`src/main.rs`) -/

/-- The fully built `std::process::Command` of `run_command`: program,
arguments, the explicit environment entries added by `.envs(&config)`, and
an inherit flag for each of the three standard streams
(`Stdio::inherit()`). -/
structure SpawnRequest where
  program : String
  args : List String
  envOverrides : ConfigMap
  stdinInherit : Bool
  stdoutInherit : Bool
  stderrInherit : Bool
deriving DecidableEq

/-- The operating system as `run_command` observes it: the filesystem and
parsers used while loading, the parent process's environment, and two
oracles giving the outcome of `spawn` and of `wait` for a built command.
A `wait` outcome of `.ok none` is an exit status with no conventional exit
code (`ExitStatus::code()` returning `None`, e.g. death by signal). -/
structure Os where
  fs : FileSystem
  parsers : Parsers
  parentEnv : String → Option String
  spawnOutcome : SpawnRequest → Except String Unit
  waitOutcome : SpawnRequest → Except String (Option Int)

/-- The spawn request `run_command` builds for command `c` with arguments
`args` and merged configuration `config`. -/
def mkRequest (c : String) (args : List String) (config : ConfigMap) :
    SpawnRequest :=
  { program := c, args := args, envOverrides := config,
    stdinInherit := true, stdoutInherit := true, stderrInherit := true }

/-- Model of the documented `std::process` behavior for a spawned child:
the child's environment is the parent's environment with the command's
explicit env entries layered on top, an explicit entry shadowing any
same-named inherited variable. -/
def childEnv (parentEnv : String → Option String) (req : SpawnRequest)
    (k : String) : Option String :=
  match ConfigMap.find? req.envOverrides k with
  | some v => some v
  | none => parentEnv k

/-- `run_command` from `src/runner.rs`.  Returns the Rust function's
result together with the list of spawn requests issued to the OS (empty
when no spawn was ever attempted). -/
def run_command (os : Os) (config_paths : List String)
    (cmd_args : List String) : Except ConfixError Int × List SpawnRequest :=
  match merge_configs os.parsers os.fs config_paths with
  | .error e => (.error e, [])
  | .ok config =>
    match cmd_args with
    | [] => (.error (.CommandFailed "No command provided."), [])
    | command :: args =>
      let req := mkRequest command args config
      match os.spawnOutcome req with
      | .error e =>
        (.error (.CommandFailed
          ("Failed to spawn command " ++ sq ++ command ++ sq ++ ": " ++ e)),
         [req])
      | .ok _ =>
        match os.waitOutcome req with
        | .error e =>
          (.error (.CommandFailed
            ("Command " ++ sq ++ command ++ sq ++ " failed to run: " ++ e)),
           [req])
        | .ok code => (.ok (code.getD 0), [req])

/-- The observable outcome of the whole tool process: its exit code and
the lines it printed to standard error. -/
structure MainOutcome where
  exitCode : Int
  stderrLines : List String
deriving DecidableEq

/-- `main` from `src/main.rs`: run `run_command`; on `Ok(code)` exit with
`code` when nonzero and fall through to a normal exit 0 otherwise; on
`Err(e)` print `Error: <message>` to standard error and exit 1. -/
def mainRun (os : Os) (config_paths : List String)
    (cmd_args : List String) : MainOutcome :=
  match (run_command os config_paths cmd_args).1 with
  | .ok code => if code ≠ 0 then ⟨code, []⟩ else ⟨0, []⟩
  | .error e => ⟨1, ["Error: " ++ errMessage e]⟩

/-! ## Concrete test world, used to instantiate the theorems -/

/-- A concrete parser oracle for the test world.  The dotenv content
strings use `;` as a stand-in line separator. -/
def testParsers : Parsers where
  dotenv := fun c =>
    if c = "KEY1=value1;OVERRIDE=from_env" then
      .ok [.ok ("KEY1", "value1"), .ok ("OVERRIDE", "from_env")]
    else if c = "K=1;K=2" then
      .ok [.ok ("K", "1"), .ok ("K", "2")]
    else if c = "TEST_VAR=confix_test_ran" then
      .ok [.ok ("TEST_VAR", "confix_test_ran")]
    else .error "malformed line"
  json := fun c =>
    if c = "obj" then .ok [("OVERRIDE", "from_json"), ("KEY2", "value2")]
    else .error "expected object"
  toml := fun _ => .error "expected table"

/-- A concrete filesystem for the test world. -/
def testFs : FileSystem := fun p =>
  if p = "a.env" then some (.ok "KEY1=value1;OVERRIDE=from_env")
  else if p = "b.json" then some (.ok "obj")
  else if p = "d.env" then some (.ok "K=1;K=2")
  else if p = "t.env" then some (.ok "TEST_VAR=confix_test_ran")
  else if p = "bad.env" then some (.ok "garbage")
  else if p = "notes.txt" then some (.ok "hello")
  else if p = "cfg/.env" then some (.ok "TEST_VAR=confix_test_ran")
  else none

/-- A concrete operating system for the test world: `seven` exits with
code 7, `sig` dies without a conventional exit code, `badprog` cannot be
spawned, and everything else exits 0. -/
def testOs : Os where
  fs := testFs
  parsers := testParsers
  parentEnv := fun k =>
    if k = "PATH" then some "/bin" else if k = "OVERRIDE" then some "parent"
    else none
  spawnOutcome := fun r =>
    if r.program = "badprog" then .error "No such file" else .ok ()
  waitOutcome := fun r =>
    if r.program = "seven" then .ok (some 7)
    else if r.program = "sig" then .ok none
    else .ok (some 0)

/-! ## ConfigMap lemmas -/

theorem find?_append (l₁ l₂ : ConfigMap) (k : String) :
    ConfigMap.find? (l₁ ++ l₂) k =
      match ConfigMap.find? l₁ k with
      | some v => some v
      | none => ConfigMap.find? l₂ k := by
  induction l₁ with
  | nil => simp [ConfigMap.find?]
  | cons p t ih =>
    by_cases h : p.1 = k
    · simp [ConfigMap.find?, h]
    · simp [ConfigMap.find?, h, ih]

theorem find?_eraseKey_self (m : ConfigMap) (k : String) :
    ConfigMap.find? (m.eraseKey k) k = none := by
  induction m with
  | nil => simp [ConfigMap.eraseKey, ConfigMap.find?]
  | cons p t ih =>
    by_cases h : p.1 = k
    · simpa [ConfigMap.eraseKey, List.filter_cons, h] using ih
    · simpa [ConfigMap.eraseKey, List.filter_cons, h, ConfigMap.find?] using ih

theorem find?_eraseKey_ne (m : ConfigMap) (k k' : String) (h : k' ≠ k) :
    ConfigMap.find? (m.eraseKey k) k' = ConfigMap.find? m k' := by
  have hk : ¬ k = k' := fun he => h he.symm
  induction m with
  | nil => simp [ConfigMap.eraseKey, ConfigMap.find?]
  | cons p t ih =>
    by_cases hp : p.1 = k
    · subst hp
      simpa [ConfigMap.eraseKey, List.filter_cons, ConfigMap.find?, hk]
        using ih
    · by_cases hp' : p.1 = k'
      · simp [ConfigMap.eraseKey, List.filter_cons, hp, ConfigMap.find?, hp',
          h]
      · simpa [ConfigMap.eraseKey, List.filter_cons, hp, ConfigMap.find?, hp']
          using ih

theorem find?_insert_self (m : ConfigMap) (k v : String) :
    ConfigMap.find? (m.insert k v) k = some v := by
  rw [ConfigMap.insert, find?_append, find?_eraseKey_self]
  simp [ConfigMap.find?]

theorem find?_insert_ne (m : ConfigMap) (k v k' : String) (h : k' ≠ k) :
    ConfigMap.find? (m.insert k v) k' = ConfigMap.find? m k' := by
  have hk : ¬ k = k' := fun he => h he.symm
  rw [ConfigMap.insert, find?_append, find?_eraseKey_ne m k k' h]
  cases hc : ConfigMap.find? m k' <;> simp [ConfigMap.find?, hk]

theorem keyCount_append (l₁ l₂ : ConfigMap) (k : String) :
    ConfigMap.keyCount (l₁ ++ l₂) k =
      ConfigMap.keyCount l₁ k + ConfigMap.keyCount l₂ k := by
  simp [ConfigMap.keyCount, List.filter_append]

theorem keyCount_eraseKey_self (m : ConfigMap) (k : String) :
    ConfigMap.keyCount (m.eraseKey k) k = 0 := by
  induction m with
  | nil => simp [ConfigMap.eraseKey, ConfigMap.keyCount]
  | cons p t ih =>
    by_cases h : p.1 = k
    · simpa [ConfigMap.eraseKey, List.filter_cons, h] using ih
    · simp [ConfigMap.eraseKey, ConfigMap.keyCount, List.filter_cons, h]

theorem keyCount_eraseKey_ne (m : ConfigMap) (k k' : String) (h : k' ≠ k) :
    ConfigMap.keyCount (m.eraseKey k) k' = ConfigMap.keyCount m k' := by
  have hk : ¬ k = k' := fun he => h he.symm
  induction m with
  | nil => simp [ConfigMap.eraseKey, ConfigMap.keyCount]
  | cons p t ih =>
    by_cases hp : p.1 = k
    · subst hp
      simpa [ConfigMap.eraseKey, ConfigMap.keyCount, List.filter_cons, hk]
        using ih
    · by_cases hp' : p.1 = k'
      · simpa [ConfigMap.eraseKey, ConfigMap.keyCount, List.filter_cons, hp,
          hp', h] using ih
      · simpa [ConfigMap.eraseKey, ConfigMap.keyCount, List.filter_cons, hp,
          hp'] using ih

theorem keyCount_insert_self (m : ConfigMap) (k v : String) :
    ConfigMap.keyCount (m.insert k v) k = 1 := by
  rw [ConfigMap.insert, keyCount_append, keyCount_eraseKey_self]
  simp [ConfigMap.keyCount]

theorem keyCount_insert_ne (m : ConfigMap) (k v k' : String) (h : k' ≠ k) :
    ConfigMap.keyCount (m.insert k v) k' = ConfigMap.keyCount m k' := by
  have hk : ¬ k = k' := fun he => h he.symm
  rw [ConfigMap.insert, keyCount_append, keyCount_eraseKey_ne m k k' h]
  simp [ConfigMap.keyCount, hk]

theorem findLast?_cons (p : String × String) (t : ConfigMap) (k : String) :
    ConfigMap.findLast? (p :: t) k =
      match ConfigMap.findLast? t k with
      | some v => some v
      | none => if p.1 = k then some p.2 else none := by
  unfold ConfigMap.findLast?
  rw [List.reverse_cons, find?_append]
  cases ConfigMap.find? t.reverse k <;> simp [ConfigMap.find?]

theorem find?_foldl_insert (src : ConfigMap) (m : ConfigMap) (k : String) :
    ConfigMap.find? (src.foldl (fun acc p => acc.insert p.1 p.2) m) k =
      match ConfigMap.findLast? src k with
      | some v => some v
      | none => ConfigMap.find? m k := by
  induction src generalizing m with
  | nil => simp [ConfigMap.findLast?, ConfigMap.find?]
  | cons p t ih =>
    rw [List.foldl_cons, ih, findLast?_cons]
    by_cases h : p.1 = k
    · subst h
      cases hc : ConfigMap.findLast? t p.1 <;>
        simp [find?_insert_self]
    · have hk : k ≠ p.1 := fun he => h he.symm
      cases hc : ConfigMap.findLast? t k <;>
        simp [h, find?_insert_ne m p.1 p.2 k hk]

theorem keyCount_foldl_insert (src : ConfigMap) (m : ConfigMap) (k : String) :
    ConfigMap.keyCount (src.foldl (fun acc p => acc.insert p.1 p.2) m) k =
      if k ∈ src.map Prod.fst then 1 else ConfigMap.keyCount m k := by
  induction src generalizing m with
  | nil => simp
  | cons p t ih =>
    rw [List.foldl_cons, ih]
    by_cases hk : k ∈ t.map Prod.fst
    · simp [hk]
    · by_cases h : p.1 = k
      · simp [hk, h, keyCount_insert_self]
      · have hne : k ≠ p.1 := fun he => h he.symm
        simp [hk, h, hne, keyCount_insert_ne m p.1 p.2 k hne]

theorem extend_find? (m src : ConfigMap) (k : String) :
    ConfigMap.find? (m.extend src) k =
      match ConfigMap.findLast? src k with
      | some v => some v
      | none => ConfigMap.find? m k :=
  find?_foldl_insert src m k

/-! ## Loader and merge lemmas -/

theorem dotenvFold_ok (pairs : List (String × String)) :
    ∀ acc, dotenvFold (pairs.map Except.ok) acc =
      .ok (pairs.foldl (fun m kv => m.insert kv.1 kv.2) acc) := by
  induction pairs with
  | nil => intro acc; simp [dotenvFold]
  | cons kv t ih =>
    intro acc
    cases kv
    simp [dotenvFold, ih]

theorem dotenvFold_error_kind (items : List (Except String (String × String)))
    (acc : ConfigMap) (e : ConfixError)
    (h : dotenvFold items acc = .error e) : ∃ s, e = .Dotenv s := by
  induction items generalizing acc with
  | nil => simp [dotenvFold] at h
  | cons it t ih =>
    match it with
    | .error s =>
      simp [dotenvFold] at h
      exact ⟨s, h.symm⟩
    | .ok (k, v) =>
      exact ih _ h

theorem load_dotenv_nofile (P : Parsers) (fs : FileSystem) (p : String)
    (hf : fs p = none) :
    load_dotenv P fs p = .error (.Dotenv ("could not open " ++ p)) := by
  unfold load_dotenv
  rw [hf]

theorem load_dotenv_readerr (P : Parsers) (fs : FileSystem) (p s : String)
    (hf : fs p = some (.error s)) :
    load_dotenv P fs p = .error (.Dotenv s) := by
  unfold load_dotenv
  rw [hf]

theorem load_dotenv_content (P : Parsers) (fs : FileSystem)
    (p content : String) (hf : fs p = some (.ok content)) :
    load_dotenv P fs p =
      match P.dotenv content with
      | .error e => .error (.Dotenv e)
      | .ok items => dotenvFold items ConfigMap.empty := by
  unfold load_dotenv
  rw [hf]

theorem load_json_nofile (P : Parsers) (fs : FileSystem) (p : String)
    (hf : fs p = none) :
    load_json P fs p = .error (.Io ("could not read " ++ p)) := by
  unfold load_json
  rw [hf]

theorem load_json_readerr (P : Parsers) (fs : FileSystem) (p s : String)
    (hf : fs p = some (.error s)) :
    load_json P fs p = .error (.Io s) := by
  unfold load_json
  rw [hf]

theorem load_json_content (P : Parsers) (fs : FileSystem)
    (p content : String) (hf : fs p = some (.ok content)) :
    load_json P fs p =
      match P.json content with
      | .error e => .error (.Json e)
      | .ok entries => .ok (mapOfPairs entries) := by
  unfold load_json
  rw [hf]

theorem load_toml_nofile (P : Parsers) (fs : FileSystem) (p : String)
    (hf : fs p = none) :
    load_toml P fs p = .error (.Io ("could not read " ++ p)) := by
  unfold load_toml
  rw [hf]

theorem load_toml_readerr (P : Parsers) (fs : FileSystem) (p s : String)
    (hf : fs p = some (.error s)) :
    load_toml P fs p = .error (.Io s) := by
  unfold load_toml
  rw [hf]

theorem load_toml_content (P : Parsers) (fs : FileSystem)
    (p content : String) (hf : fs p = some (.ok content)) :
    load_toml P fs p =
      match P.toml content with
      | .error e => .error (.Toml e)
      | .ok entries => .ok (mapOfPairs entries) := by
  unfold load_toml
  rw [hf]

theorem load_dotenv_error_kind (P : Parsers) (fs : FileSystem) (p : String)
    (e : ConfixError) (h : load_dotenv P fs p = .error e) :
    ∃ s, e = .Dotenv s := by
  rcases hf : fs p with _ | (s | content)
  · rw [load_dotenv_nofile P fs p hf] at h
    injection h with h
    exact ⟨_, h.symm⟩
  · rw [load_dotenv_readerr P fs p s hf] at h
    injection h with h
    exact ⟨s, h.symm⟩
  · rw [load_dotenv_content P fs p content hf] at h
    rcases hp : P.dotenv content with s | items <;> rw [hp] at h
    · injection h with h
      exact ⟨s, h.symm⟩
    · exact dotenvFold_error_kind items _ e h

theorem load_json_error_kind (P : Parsers) (fs : FileSystem) (p : String)
    (e : ConfixError) (h : load_json P fs p = .error e) :
    (∃ s, e = .Io s) ∨ (∃ s, e = .Json s) := by
  rcases hf : fs p with _ | (s | content)
  · rw [load_json_nofile P fs p hf] at h
    injection h with h
    exact .inl ⟨_, h.symm⟩
  · rw [load_json_readerr P fs p s hf] at h
    injection h with h
    exact .inl ⟨s, h.symm⟩
  · rw [load_json_content P fs p content hf] at h
    rcases hp : P.json content with s | entries <;> rw [hp] at h
    · injection h with h
      exact .inr ⟨s, h.symm⟩
    · simp at h

theorem load_toml_error_kind (P : Parsers) (fs : FileSystem) (p : String)
    (e : ConfixError) (h : load_toml P fs p = .error e) :
    (∃ s, e = .Io s) ∨ (∃ s, e = .Toml s) := by
  rcases hf : fs p with _ | (s | content)
  · rw [load_toml_nofile P fs p hf] at h
    injection h with h
    exact .inl ⟨_, h.symm⟩
  · rw [load_toml_readerr P fs p s hf] at h
    injection h with h
    exact .inl ⟨s, h.symm⟩
  · rw [load_toml_content P fs p content hf] at h
    rcases hp : P.toml content with s | entries <;> rw [hp] at h
    · injection h with h
      exact .inr ⟨s, h.symm⟩
    · simp at h

theorem load_config_file_not_CommandFailed (P : Parsers) (fs : FileSystem)
    (p : String) (e : ConfixError) (h : load_config_file P fs p = .error e) :
    ∀ msg, e ≠ .CommandFailed msg := by
  intro msg hc
  subst hc
  unfold load_config_file at h
  by_cases hf : (fs p).isNone
  · rw [if_pos hf] at h
    simp at h
  · rw [if_neg hf] at h
    have hdot : ∀ hd : load_dotenv P fs p = .error (.CommandFailed msg), False := by
      intro hd
      obtain ⟨s, hs⟩ := load_dotenv_error_kind P fs p _ hd
      simp at hs
    have hjson : ∀ hd : load_json P fs p = .error (.CommandFailed msg), False := by
      intro hd
      rcases load_json_error_kind P fs p _ hd with ⟨s, hs⟩ | ⟨s, hs⟩ <;> simp at hs
    have htoml : ∀ hd : load_toml P fs p = .error (.CommandFailed msg), False := by
      intro hd
      rcases load_toml_error_kind P fs p _ hd with ⟨s, hs⟩ | ⟨s, hs⟩ <;> simp at hs
    cases hext : extension p with
    | none =>
      rw [hext] at h
      by_cases hn : fileName p = some ".env"
      · rw [if_pos hn] at h; exact hdot h
      · rw [if_neg hn] at h; simp at h
    | some s =>
      rw [hext] at h
      by_cases h1 : s = "env"
      · subst h1; exact hdot h
      · by_cases h2 : s = "json"
        · subst h2; exact hjson h
        · by_cases h3 : s = "toml"
          · subst h3; exact htoml h
          · simp [h1, h2, h3] at h
            by_cases hn : fileName p = some ".env"
            · rw [if_pos hn] at h; exact hdot h
            · rw [if_neg hn] at h; simp at h

theorem mergeLoop_eq (P : Parsers) (fs : FileSystem) (paths : List String) :
    ∀ acc, mergeLoop P fs acc paths =
      match loadAll P fs paths with
      | .error e => .error e
      | .ok ms => .ok (ms.foldl ConfigMap.extend acc) := by
  induction paths with
  | nil => intro acc; rfl
  | cons p rest ih =>
    intro acc
    rcases hl : load_config_file P fs p with e | m
    · simp [mergeLoop, loadAll, hl]
    · simp only [mergeLoop, loadAll, hl, ih]
      rcases hr : loadAll P fs rest with e' | ms <;> simp

theorem mergeLoop_fail (P : Parsers) (fs : FileSystem) (pre : List String) :
    ∀ acc p post e,
      (∀ q ∈ pre, ∃ m, load_config_file P fs q = .ok m) →
      load_config_file P fs p = .error e →
      mergeLoop P fs acc (pre ++ p :: post) = .error e := by
  induction pre with
  | nil =>
    intro acc p post e _ hp
    simp only [List.nil_append, mergeLoop]
    rw [hp]
  | cons q t ih =>
    intro acc p post e hpre hp
    obtain ⟨m, hq⟩ := hpre q (List.mem_cons_self q t)
    simp only [List.cons_append, mergeLoop]
    rw [hq]
    exact ih _ p post e (fun r hr => hpre r (List.mem_cons_of_mem q hr)) hp

theorem mergeLoop_not_CommandFailed (P : Parsers) (fs : FileSystem)
    (paths : List String) :
    ∀ acc e, mergeLoop P fs acc paths = .error e →
      ∀ msg, e ≠ .CommandFailed msg := by
  induction paths with
  | nil =>
    intro acc e h
    simp [mergeLoop] at h
  | cons p rest ih =>
    intro acc e h msg
    simp only [mergeLoop] at h
    rcases hl : load_config_file P fs p with e' | m <;> rw [hl] at h
    · injection h with h2
      subst h2
      exact load_config_file_not_CommandFailed P fs p e' hl msg
    · exact ih _ e h msg

/-! ## run_command equation lemmas -/

theorem run_command_merge_error (os : Os) (paths cmd : List String)
    (e : ConfixError) (hm : merge_configs os.parsers os.fs paths = .error e) :
    run_command os paths cmd = (.error e, []) := by
  unfold run_command
  rw [hm]

theorem run_command_merge_ok_nil (os : Os) (paths : List String)
    (config : ConfigMap)
    (hm : merge_configs os.parsers os.fs paths = .ok config) :
    run_command os paths [] =
      (.error (.CommandFailed "No command provided."), []) := by
  unfold run_command
  rw [hm]

theorem run_command_merge_ok_cons (os : Os) (paths : List String)
    (c : String) (args : List String) (config : ConfigMap)
    (hm : merge_configs os.parsers os.fs paths = .ok config) :
    run_command os paths (c :: args) =
      match os.spawnOutcome (mkRequest c args config) with
      | .error e =>
        (.error (.CommandFailed
          ("Failed to spawn command " ++ sq ++ c ++ sq ++ ": " ++ e)),
         [mkRequest c args config])
      | .ok _ =>
        match os.waitOutcome (mkRequest c args config) with
        | .error e =>
          (.error (.CommandFailed
            ("Command " ++ sq ++ c ++ sq ++ " failed to run: " ++ e)),
           [mkRequest c args config])
        | .ok code => (.ok (code.getD 0), [mkRequest c args config]) := by
  unfold run_command
  rw [hm]

/-! ## Claim theorems -/

/-- C1: for every sequence of config file paths that all load successfully,
the merged result equals folding the per-file mappings left-to-right
starting from the empty mapping, a later file's entry replacing an earlier
entry of the same key; merging the empty sequence of paths yields the empty
mapping, not an error. -/
theorem merge_is_left_fold (P : Parsers) (fs : FileSystem)
    (paths : List String) (maps : List ConfigMap)
    (h : loadAll P fs paths = .ok maps) :
    merge_configs P fs paths =
      .ok (maps.foldl ConfigMap.extend ConfigMap.empty)
    ∧ merge_configs P fs [] = .ok ConfigMap.empty
    ∧ (∀ m₁ m₂ : ConfigMap, ∀ k v, ConfigMap.findLast? m₂ k = some v →
        ConfigMap.find? (m₁.extend m₂) k = some v)
    ∧ (∀ m₁ m₂ : ConfigMap, ∀ k, ConfigMap.findLast? m₂ k = none →
        ConfigMap.find? (m₁.extend m₂) k = ConfigMap.find? m₁ k) := by
  refine ⟨?_, rfl, ?_, ?_⟩
  · rw [merge_configs, mergeLoop_eq, h]
  · intro m₁ m₂ k v hv
    rw [extend_find?, hv]
  · intro m₁ m₂ k hv
    rw [extend_find?, hv]

/-- Witness for the C1 theorem: the two files of the spec's merge example,
in order, with the later (JSON) file overriding the `OVERRIDE` key. -/
theorem merge_is_left_fold_witness :
    loadAll testParsers testFs ["a.env", "b.json"] =
      .ok [[("KEY1", "value1"), ("OVERRIDE", "from_env")],
           [("OVERRIDE", "from_json"), ("KEY2", "value2")]]
    ∧ merge_configs testParsers testFs ["a.env", "b.json"] =
      .ok ([[("KEY1", "value1"), ("OVERRIDE", "from_env")],
            [("OVERRIDE", "from_json"), ("KEY2", "value2")]].foldl
          ConfigMap.extend ConfigMap.empty) :=
  ⟨by rfl,
   (merge_is_left_fold testParsers testFs ["a.env", "b.json"]
      [[("KEY1", "value1"), ("OVERRIDE", "from_env")],
       [("OVERRIDE", "from_json"), ("KEY2", "value2")]] (by rfl)).1⟩

/-- C5: for every path that does not exist on disk, `load_config_file`
fails with `FileNotFound` carrying that path, regardless of the path's
extension; the existence check precedes format detection, so the result is
never `UnsupportedFormat` for such a path. -/
theorem load_config_file_not_found (P : Parsers) (fs : FileSystem)
    (path : String) (h : fs path = none) :
    load_config_file P fs path = .error (.FileNotFound path) := by
  unfold load_config_file
  rw [h]
  simp

/-- Witness for the C5 theorem: a nonexistent path with an unsupported
extension still reports `FileNotFound`, not `UnsupportedFormat`. -/
theorem load_config_file_not_found_witness :
    load_config_file testParsers testFs "ghost.xyz" =
      .error (.FileNotFound "ghost.xyz") :=
  load_config_file_not_found testParsers testFs "ghost.xyz" (by rfl)

/-- C7: a sequence of config paths whose first failing path is `p` merges
to exactly `p`'s error, for every choice of the paths after `p` — no
partial mapping is returned and the later files are never consulted. -/
theorem merge_aborts_at_first_failure (P : Parsers) (fs : FileSystem)
    (pre : List String) (p : String) (post : List String) (e : ConfixError)
    (hpre : ∀ q ∈ pre, ∃ m, load_config_file P fs q = .ok m)
    (hp : load_config_file P fs p = .error e) :
    merge_configs P fs (pre ++ p :: post) = .error e :=
  mergeLoop_fail P fs pre ConfigMap.empty p post e hpre hp

/-- Witness for the C7 theorem: the missing `ghost.env` aborts the merge
even though `a.env` loaded and `b.json` would load. -/
theorem merge_aborts_at_first_failure_witness :
    merge_configs testParsers testFs ["a.env", "ghost.env", "b.json"] =
      .error (.FileNotFound "ghost.env") :=
  merge_aborts_at_first_failure testParsers testFs ["a.env"] "ghost.env"
    ["b.json"] (.FileNotFound "ghost.env")
    (by
      intro q hq
      simp only [List.mem_singleton] at hq
      subst hq
      exact ⟨[("KEY1", "value1"), ("OVERRIDE", "from_env")], by rfl⟩)
    (by rfl)

/-- C6: for every existing file, `load_config_file` dispatches by
case-sensitive exact match of the extension (`env` / `json` / `toml` to
the respective loader); when no extension matches, a file whose base name
is the literal `.env` goes to the line-based loader, and every other path
fails with `UnsupportedFormat` carrying that exact path. -/
theorem load_config_file_dispatch (P : Parsers) (fs : FileSystem)
    (path : String) (c : Except String String) (h : fs path = some c) :
    (extension path = some "env" →
        load_config_file P fs path = load_dotenv P fs path)
    ∧ (extension path = some "json" →
        load_config_file P fs path = load_json P fs path)
    ∧ (extension path = some "toml" →
        load_config_file P fs path = load_toml P fs path)
    ∧ (extension path ≠ some "env" → extension path ≠ some "json" →
        extension path ≠ some "toml" → fileName path = some ".env" →
        load_config_file P fs path = load_dotenv P fs path)
    ∧ (extension path ≠ some "env" → extension path ≠ some "json" →
        extension path ≠ some "toml" → fileName path ≠ some ".env" →
        load_config_file P fs path = .error (.UnsupportedFormat path)) := by
  have hnn : ¬ (fs path).isNone = true := by simp [h]
  refine ⟨?_, ?_, ?_, ?_, ?_⟩
  · intro h1
    unfold load_config_file
    rw [if_neg hnn]
    split <;> first | rfl | simp_all
  · intro h1
    unfold load_config_file
    rw [if_neg hnn]
    split <;> first | rfl | simp_all
  · intro h1
    unfold load_config_file
    rw [if_neg hnn]
    split <;> first | rfl | simp_all
  · intro h1 h2 h3 h4
    unfold load_config_file
    rw [if_neg hnn]
    split
    · rfl
    · simp_all
    · simp_all
    · rw [if_pos h4]
  · intro h1 h2 h3 h4
    unfold load_config_file
    rw [if_neg hnn]
    split
    · simp_all
    · simp_all
    · simp_all
    · rw [if_neg h4]

/-- Witness for the C6 theorem: an `env` extension dispatches to the
line-based loader, a `json` extension to the JSON loader, a bare file
named `.env` to the line-based loader, and a `.txt` file is rejected as
`UnsupportedFormat` even though it exists and is readable. -/
theorem load_config_file_dispatch_witness :
    load_config_file testParsers testFs "a.env" =
      load_dotenv testParsers testFs "a.env"
    ∧ load_config_file testParsers testFs "b.json" =
      load_json testParsers testFs "b.json"
    ∧ load_config_file testParsers testFs "cfg/.env" =
      load_dotenv testParsers testFs "cfg/.env"
    ∧ load_config_file testParsers testFs "notes.txt" =
      .error (.UnsupportedFormat "notes.txt") :=
  ⟨(load_config_file_dispatch testParsers testFs "a.env" _ (by rfl)).1
      (by rfl),
   (load_config_file_dispatch testParsers testFs "b.json" _ (by rfl)).2.1
      (by rfl),
   (load_config_file_dispatch testParsers testFs "cfg/.env" _
      (by rfl)).2.2.2.1 (by decide) (by decide) (by decide) (by decide),
   (load_config_file_dispatch testParsers testFs "notes.txt" _
      (by rfl)).2.2.2.2 (by decide) (by decide) (by decide) (by decide)⟩

/-- C2: for a merged mapping and a non-empty command that spawns
successfully, `run_command` issues exactly one spawn request, whose
explicit env entries are exactly the merged mapping and whose three
standard streams are all inherited from the parent; under the modelled
`std::process` semantics, the child's environment is the parent's extended
with every pair of the merged mapping, a config key shadowing any
same-named inherited variable. -/
theorem spawn_env_and_stdio_contract (os : Os) (paths : List String)
    (c : String) (args : List String) (config : ConfigMap)
    (hm : merge_configs os.parsers os.fs paths = .ok config)
    (hs : os.spawnOutcome (mkRequest c args config) = .ok ()) :
    (run_command os paths (c :: args)).2 = [mkRequest c args config]
    ∧ (mkRequest c args config).envOverrides = config
    ∧ (mkRequest c args config).stdinInherit = true
    ∧ (mkRequest c args config).stdoutInherit = true
    ∧ (mkRequest c args config).stderrInherit = true
    ∧ (∀ k v, ConfigMap.find? config k = some v →
        childEnv os.parentEnv (mkRequest c args config) k = some v)
    ∧ (∀ k, ConfigMap.find? config k = none →
        childEnv os.parentEnv (mkRequest c args config) k = os.parentEnv k) := by
  refine ⟨?_, rfl, rfl, rfl, rfl, ?_, ?_⟩
  · rw [run_command_merge_ok_cons os paths c args config hm, hs]
    rcases hw : os.waitOutcome (mkRequest c args config) with e | code <;> rfl
  · intro k v hv
    simp [childEnv, mkRequest, hv]
  · intro k hv
    simp [childEnv, mkRequest, hv]

/-- Witness for the C2 theorem: running `seven` with `a.env` issues one
spawn request carrying the merged mapping with all streams inherited, and
the merged `OVERRIDE` key shadows the parent's `OVERRIDE` variable in the
modelled child environment, while the untouched `PATH` is inherited. -/
theorem spawn_env_and_stdio_contract_witness :
    (run_command testOs ["a.env"] ["seven"]).2 =
      [mkRequest "seven" []
        [("KEY1", "value1"), ("OVERRIDE", "from_env")]]
    ∧ childEnv testOs.parentEnv
        (mkRequest "seven" [] [("KEY1", "value1"), ("OVERRIDE", "from_env")])
        "OVERRIDE" = some "from_env"
    ∧ childEnv testOs.parentEnv
        (mkRequest "seven" [] [("KEY1", "value1"), ("OVERRIDE", "from_env")])
        "PATH" = testOs.parentEnv "PATH" :=
  ⟨(spawn_env_and_stdio_contract testOs ["a.env"] "seven" []
      [("KEY1", "value1"), ("OVERRIDE", "from_env")] (by rfl) (by rfl)).1,
   (spawn_env_and_stdio_contract testOs ["a.env"] "seven" []
      [("KEY1", "value1"), ("OVERRIDE", "from_env")] (by rfl)
      (by rfl)).2.2.2.2.2.1 "OVERRIDE" "from_env" (by rfl),
   (spawn_env_and_stdio_contract testOs ["a.env"] "seven" []
      [("KEY1", "value1"), ("OVERRIDE", "from_env")] (by rfl)
      (by rfl)).2.2.2.2.2.2 "PATH" (by rfl)⟩

/-- C3: the tool's own exit code is the child's exit code whenever
`run_command` succeeds (0 for a child exiting 0, the child's code
otherwise), and on any core-level failure the tool prints exactly one
`Error: <message>` line to standard error and exits with code 1. -/
theorem main_exit_code_policy (os : Os) (paths cmd : List String) :
    (∀ c : Int, (run_command os paths cmd).1 = .ok c →
        mainRun os paths cmd = ⟨c, []⟩)
    ∧ (∀ e : ConfixError, (run_command os paths cmd).1 = .error e →
        mainRun os paths cmd = ⟨1, ["Error: " ++ errMessage e]⟩) := by
  constructor
  · intro c h
    unfold mainRun
    rw [h]
    by_cases hc : c = 0
    · subst hc
      simp
    · simp [hc]
  · intro e h
    unfold mainRun
    rw [h]

/-- Witness for the C3 theorem: a child exiting with code 7 makes the tool
exit with code 7 printing nothing, and a missing config file makes it exit
with code 1 printing one `Error:` line. -/
theorem main_exit_code_policy_witness :
    mainRun testOs ["a.env"] ["seven"] = ⟨7, []⟩
    ∧ mainRun testOs ["ghost.env"] ["seven"] =
        ⟨1, ["Error: " ++ errMessage (.FileNotFound "ghost.env")]⟩ :=
  ⟨(main_exit_code_policy testOs ["a.env"] ["seven"]).1 7 (by rfl),
   (main_exit_code_policy testOs ["ghost.env"] ["seven"]).2
      (.FileNotFound "ghost.env") (by rfl)⟩

/-- C4: when the wait succeeds, `run_command` returns the child's exit
code on normal completion, and returns 0 (not an error) when the OS
reports no conventional exit code, e.g. termination by a signal. -/
theorem wait_status_normalization (os : Os) (paths : List String)
    (c : String) (args : List String) (config : ConfigMap)
    (hm : merge_configs os.parsers os.fs paths = .ok config)
    (hs : os.spawnOutcome (mkRequest c args config) = .ok ()) :
    (∀ n : Int, os.waitOutcome (mkRequest c args config) = .ok (some n) →
        (run_command os paths (c :: args)).1 = .ok n)
    ∧ (os.waitOutcome (mkRequest c args config) = .ok none →
        (run_command os paths (c :: args)).1 = .ok 0) := by
  constructor
  · intro n hw
    rw [run_command_merge_ok_cons os paths c args config hm, hs, hw]
    rfl
  · intro hw
    rw [run_command_merge_ok_cons os paths c args config hm, hs, hw]
    rfl

/-- Witness for the C4 theorem: `seven` exits with code 7 and
`run_command` returns 7; `sig` has no conventional exit code and
`run_command` returns 0. -/
theorem wait_status_normalization_witness :
    (run_command testOs ["a.env"] ["seven"]).1 = .ok 7
    ∧ (run_command testOs ["a.env"] ["sig"]).1 = .ok 0 :=
  ⟨(wait_status_normalization testOs ["a.env"] "seven" []
      [("KEY1", "value1"), ("OVERRIDE", "from_env")] (by rfl) (by rfl)).1 7
      (by rfl),
   (wait_status_normalization testOs ["a.env"] "sig" []
      [("KEY1", "value1"), ("OVERRIDE", "from_env")] (by rfl) (by rfl)).2
      (by rfl)⟩

/-- C8: with an empty command list `run_command` never issues a spawn
request, and when the configs merge successfully it fails with the
`CommandFailed` error carrying the descriptive message. -/
theorem empty_command_never_spawns (os : Os) (paths : List String) :
    (run_command os paths []).2 = []
    ∧ ∀ config, merge_configs os.parsers os.fs paths = .ok config →
        run_command os paths [] =
          (.error (.CommandFailed "No command provided."), []) := by
  constructor
  · rcases hm : merge_configs os.parsers os.fs paths with e | config
    · rw [run_command_merge_error os paths [] e hm]
    · rw [run_command_merge_ok_nil os paths config hm]
  · intro config hm
    exact run_command_merge_ok_nil os paths config hm

/-- Witness for the C8 theorem: an empty command list with a loadable
config fails with `CommandFailed` and an empty spawn trace. -/
theorem empty_command_never_spawns_witness :
    run_command testOs ["a.env"] [] =
      (.error (.CommandFailed "No command provided."), []) :=
  (empty_command_never_spawns testOs ["a.env"]).2
    [("KEY1", "value1"), ("OVERRIDE", "from_env")] (by rfl)

/-- C9: configs are loaded and merged before the command list is checked
for emptiness: when some config path fails to load and the command list is
empty, the returned error is that path's loading error, which is never a
`CommandFailed` error. -/
theorem config_error_before_empty_command_check (os : Os)
    (pre : List String) (p : String) (post : List String) (e : ConfixError)
    (hpre : ∀ q ∈ pre, ∃ m, load_config_file os.parsers os.fs q = .ok m)
    (hp : load_config_file os.parsers os.fs p = .error e) :
    run_command os (pre ++ p :: post) [] = (.error e, [])
    ∧ ∀ msg, e ≠ .CommandFailed msg := by
  have hm : merge_configs os.parsers os.fs (pre ++ p :: post) = .error e :=
    mergeLoop_fail os.parsers os.fs pre ConfigMap.empty p post e hpre hp
  exact ⟨run_command_merge_error os (pre ++ p :: post) [] e hm,
    load_config_file_not_CommandFailed os.parsers os.fs p e hp⟩

/-- Witness for the C9 theorem: a missing config path together with an
empty command list yields `FileNotFound`, not `CommandFailed`. -/
theorem config_error_before_empty_command_check_witness :
    run_command testOs ["ghost.env"] [] =
      (.error (.FileNotFound "ghost.env"), [])
    ∧ (ConfixError.FileNotFound "ghost.env") ≠
        .CommandFailed "No command provided." :=
  ⟨(config_error_before_empty_command_check testOs [] "ghost.env" []
      (.FileNotFound "ghost.env") (by simp) (by rfl)).1,
   (config_error_before_empty_command_check testOs [] "ghost.env" []
      (.FileNotFound "ghost.env") (by simp) (by rfl)).2
      "No command provided."⟩

/-- C10: a line-based file that parses successfully with the same key on
several lines loads to a mapping that is the in-order fold of the parsed
pairs, so the key occurs exactly once, bound to the value of the last line
on which it appears. -/
theorem dotenv_duplicate_key_last_wins (P : Parsers) (fs : FileSystem)
    (path content : String) (pairs : List (String × String))
    (hf : fs path = some (.ok content))
    (hp : P.dotenv content = .ok (pairs.map Except.ok)) :
    load_dotenv P fs path = .ok (mapOfPairs pairs)
    ∧ ∀ k, k ∈ pairs.map Prod.fst →
        ConfigMap.keyCount (mapOfPairs pairs) k = 1
        ∧ ConfigMap.find? (mapOfPairs pairs) k =
            ConfigMap.findLast? pairs k := by
  constructor
  · rw [load_dotenv_content P fs path content hf, hp]
    exact dotenvFold_ok pairs ConfigMap.empty
  · intro k hk
    constructor
    · simp only [mapOfPairs]
      rw [keyCount_foldl_insert]
      simp [hk]
    · simp only [mapOfPairs]
      rw [find?_foldl_insert]
      rcases hl : ConfigMap.findLast? pairs k with _ | v <;>
        simp [ConfigMap.find?, ConfigMap.empty]

/-- Witness for the C10 theorem: `d.env` binds `K` twice; the loaded map
holds `K` exactly once, bound to the later value `2`. -/
theorem dotenv_duplicate_key_last_wins_witness :
    load_dotenv testParsers testFs "d.env" = .ok [("K", "2")]
    ∧ ConfigMap.keyCount (mapOfPairs [("K", "1"), ("K", "2")]) "K" = 1
    ∧ ConfigMap.find? (mapOfPairs [("K", "1"), ("K", "2")]) "K" =
        ConfigMap.findLast? [("K", "1"), ("K", "2")] "K" :=
  ⟨(dotenv_duplicate_key_last_wins testParsers testFs "d.env" "K=1;K=2"
      [("K", "1"), ("K", "2")] (by rfl) (by rfl)).1,
   ((dotenv_duplicate_key_last_wins testParsers testFs "d.env" "K=1;K=2"
      [("K", "1"), ("K", "2")] (by rfl) (by rfl)).2 "K" (by simp)).1,
   ((dotenv_duplicate_key_last_wins testParsers testFs "d.env" "K=1;K=2"
      [("K", "1"), ("K", "2")] (by rfl) (by rfl)).2 "K" (by simp)).2⟩

end Confix
